import Mathlib

/-
Shallow embedding of the synchronization engine in src/Client/src/sync.py.

Files are byte lists (`List Nat`).  The MD5 primitive from `hashlib` is an
external collaborator; it is modelled by an arbitrary function
`H : List Nat â†’ List Nat` applied to the exact byte sequence fed to the
hash object (`update` accumulates bytes, `digest` applies `H`).  Base64
encoding/decoding is a bijection between digests and their transported
strings, so digests are carried directly.  Results of remote-API and
rdiff collaborator calls are inputs to the embedded functions.
-/

namespace Sync

/-- A digest (or any byte string) is a list of byte values. -/
abbrev Digest := List Nat

/-- One step of repeated `fi.read(size)`: the chunks produced by reading a
byte list `size` bytes at a time.  `fuel` bounds the recursion; it is always
called with `fuel = l.length`, which suffices because every read with
`0 < size` consumes at least one byte.  `read(0)` returns the empty string
in Python, ending the read loop at once, hence no chunks when `size = 0`. -/
def chunksOfAux (size : Nat) : Nat → List Nat → List (List Nat)
  | 0, _ => []
  | _, [] => []
  | fuel + 1, l => l.take size :: chunksOfAux size fuel (l.drop size)

/-- The sequence of chunks obtained from `iter(lambda: fi.read(size), b"")`. -/
def chunksOf (size : Nat) (l : List Nat) : List (List Nat) :=
  if size = 0 then [] else chunksOfAux size l.length l

/-- `hash.update` over a list of chunks: the accumulated byte sequence fed to
the hash object (sync.py lines 51-54). -/
def md5_update_all (acc : List Nat) : List (List Nat) → List Nat
  | [] => acc
  | c :: cs => md5_update_all (acc ++ c) cs

/-- `Sync.md5_whole_file` (sync.py lines 49-59): one MD5 over the whole file,
read 16384 bytes at a time; the `bytes_=True` digest form. -/
def md5_whole_file (H : List Nat → List Nat) (file : List Nat) : Digest :=
  H (md5_update_all [] (chunksOf 16384 file))

/-- Body of `Sync.md5_file_generator` (sync.py lines 61-71): for each chunk
read, yield the chunk's own digest while also feeding the running whole-file
hash `acc`; after the last chunk yield the whole-file digest. -/
def md5_gen_aux (H : List Nat → List Nat) (acc : List Nat) :
    List (List Nat) → List Digest
  | [] => [H acc]
  | c :: cs => H c :: md5_gen_aux H (acc ++ c) cs

/-- `Sync.md5_file_generator` (sync.py lines 61-71), materialized as the list
of values the generator yields, in order. -/
def md5_file_generator (H : List Nat → List Nat) (size : Nat)
    (file : List Nat) : List Digest :=
  md5_gen_aux H [] (chunksOf size file)

/-- The literal byte sequence b'stop'. -/
def stopBytes : List Nat := [115, 116, 111, 112]

/-- `Sync.receive_file` (sync.py lines 81-88): the buffers written to the
output file, given the successive results of `tcp_socket.recv`.  A read
past the end of `reads` models a closed connection (recv returns b''). -/
def receive_file : List (List Nat) → List (List Nat)
  | [] => []
  | buf :: rest =>
      if buf = [] ∨ buf = stopBytes then [] else buf :: receive_file rest

/-- Direction chosen for a file present on both sides. -/
inductive Direction where
  | upload
  | download
deriving DecidableEq

/-- Decimal digits of `n`, most significant first, as produced by `str(n)`.
`fuel = n + 1` always suffices since a number has at most `n + 1` digits. -/
def natDigitsAux : Nat → Nat → List Nat
  | 0, _ => []
  | fuel + 1, n => if n < 10 then [n] else natDigitsAux fuel (n / 10) ++ [n % 10]

/-- Decimal representation of a natural number (digit list of `str(n)`). -/
def natDigits (n : Nat) : List Nat := natDigitsAux (n + 1) n

/-- Value of a most-significant-first digit list. -/
def ofDigits : List Nat → Nat
  | [] => 0
  | d :: ds => d * 10 ^ ds.length + ofDigits ds

/-- `float(str(mtime)[:10])` of sync.py line 245: the number formed by the
first 10 decimal digits of the recorded chunk modification time. -/
def firstTenDigits (n : Nat) : Nat := ofDigits ((natDigits n).take 10)

/-- The comparison on sync.py line 246: upload iff the (rounded) local
modification time exceeds the remote reference time by strictly more
than 50 seconds, download otherwise. -/
def chooseDirection (local_mtime remote_mtime : Nat) : Direction :=
  if remote_mtime + 50 < local_mtime then .upload else .download

/-- Lines 244-246 of sync.py: the direction computed from the local mtime
and the first chunk's raw recorded mtime. -/
def syncDirection (local_mtime first_chunk_mtime : Nat) : Direction :=
  chooseDirection local_mtime (firstTenDigits first_chunk_mtime)

/-- One entry of `remote_meta['chunks']`: the chunk's content digest
(`e_tag`, already base64-decoded) and its recorded modification time. -/
structure ChunkInfo where
  e_tag : Digest
  mtime : Nat
deriving DecidableEq

/-- The remote entry fields consumed by `sync_both_file`.  `Md5` is `none`
for the literal marker string 'None' and `some d` for a base64 digest
decoding to `d`. -/
structure RemoteMeta where
  Md5 : Option Digest
  FileSize : Nat
  chunks : List ChunkInfo
deriving DecidableEq

/-- Observable outcome of the comparison phase of `sync_both_file`
(sync.py lines 210-242): whether the file was reported already synced,
the digest passed to `filer_set_file_md5_tag` (if it was called), and
whether `filer_remove_file_tags` was called. -/
structure CompareOutcome where
  synced : Bool
  persistedMd5 : Option Digest
  removedTags : Bool
deriving DecidableEq

/-- The inner closure `chunks_md5s_equals` (sync.py lines 213-217), walking
the remote chunk list against the shared lazy digest generator.  The first
component of the result is the returned boolean, the second the remaining
(unconsumed) part of the generator; `none` models the `StopIteration`
raised by `next` on an exhausted generator. -/
def chunks_md5s_equals : List Digest → List ChunkInfo → Option (Bool × List Digest)
  | gen, [] => some (true, gen)
  | [], _ :: _ => none
  | g :: gs, c :: cs =>
      if c.e_tag = g then chunks_md5s_equals gs cs else some (false, gs)

/-- Lines 219-226 of sync.py: the whole-file digest in effect after the
tag-resolution step.  `tag` is the answer of `filer_get_file_md5_tag`
(`none` for the empty string), consulted only when `Md5` is the 'None'
marker. -/
def resolvedMd5 (meta : RemoteMeta) (tag : Option Digest) : Option Digest :=
  match meta.Md5 with
  | some d => some d
  | none => tag

/-- The comparison phase of `Sync.sync_both_file` (sync.py lines 210-242):
tag resolution, the size-and-digest test deciding "file is already synced",
and the `update_remote_md5` side effect, which takes `next` of the shared
generator whenever the digest was still unknown — on the synced path, on
the per-chunk mismatch path, and on the size-mismatch path alike.
`none` models an uncaught `StopIteration`. -/
def sync_both_file_compare (H : List Nat → List Nat) (size : Nat)
    (file : List Nat) (meta : RemoteMeta) (tag : Option Digest) :
    Option CompareOutcome :=
  match resolvedMd5 meta tag with
  | some d =>
      if file.length = meta.FileSize ∧ md5_whole_file H file = d then
        some { synced := true, persistedMd5 := none, removedTags := true }
      else
        some { synced := false, persistedMd5 := none, removedTags := false }
  | none =>
      if file.length = meta.FileSize then
        match chunks_md5s_equals (md5_file_generator H size file) meta.chunks with
        | none => none
        | some (eq, rest) =>
            match rest with
            | [] => none
            | g :: _ => some { synced := eq, persistedMd5 := some g, removedTags := eq }
      else
        match md5_file_generator H size file with
        | [] => none
        | g :: _ => some { synced := false, persistedMd5 := some g, removedTags := false }

/-- Comparison of one remote chunk digest against the digest of the
corresponding local byte range, in chunk order, following the words of the
spec: every remote chunk digest must equal the digest of the corresponding
local chunk; a remote chunk with no corresponding local chunk has nothing
to equal. -/
def specChunkwiseMatch (H : List Nat → List Nat) :
    List ChunkInfo → List (List Nat) → Bool
  | [], _ => true
  | _ :: _, [] => false
  | c :: cs, lc :: lcs => (decide (c.e_tag = H lc)) && specChunkwiseMatch H cs lcs

/-- The already-synced predicate following the words of the spec: size
matches, and the known whole-file digest matches, or with no whole-file
digest known every remote chunk digest matches the corresponding local
chunk digest. -/
def spec_isAlreadySynced (H : List Nat → List Nat) (size : Nat)
    (file : List Nat) (meta : RemoteMeta) (tag : Option Digest) : Bool :=
  (decide (file.length = meta.FileSize)) &&
    match resolvedMd5 meta tag with
    | some d => decide (md5_whole_file H file = d)
    | none => specChunkwiseMatch H meta.chunks (chunksOf size file)

/-- One entry of the remote folder listing, restricted to the fields
`sync_folder_listing` reads. -/
structure ListingEntry where
  Mode : Nat
  FullPath : String
deriving DecidableEq

/-- Python `str.replace('\\', '/')`: character-wise backslash
normalization. -/
def normSlashes (s : String) : String :=
  String.mk (s.data.map fun c => if c = '\\' then '/' else c)

/-- `Sync.remove_prefix` (sync.py lines 98-102). -/
def remove_prefix (text pre : String) : String :=
  if pre.data.isPrefixOf text.data then String.mk (text.data.drop pre.data.length)
  else text

/-- Insertion into a Python dict rendered as an insertion-ordered
association list: an existing key keeps its position and gets the new
value, a new key is appended. -/
def dictInsert (d : List (String × ListingEntry)) (k : String)
    (v : ListingEntry) : List (String × ListingEntry) :=
  if k ∈ d.map Prod.fst then d.map (fun p => if p.1 = k then (k, v) else p)
  else d ++ [(k, v)]

/-- Lines 150-153 of sync.py: the `remote_files` dict — listing entries
with `Mode <= 9999` (files), keyed by their path relative to the user's
remote root. -/
def buildRemoteFiles (username : String) (listing : List ListingEntry) :
    List (String × ListingEntry) :=
  listing.foldl
    (fun d e =>
      if e.Mode ≤ 9999 then
        dictInsert d ( remove_prefix e.FullPath ("/" ++ username ++ "/")) e
      else d)
    []

/-- Python `set.add` on a deduplicated list. -/
def setAdd (s : List String) (x : String) : List String :=
  if x ∈ s then s else s ++ [x]

/-- Lines 155-162 of sync.py: the `local_files` set, collected from the
directory walk; each walk item carries the directory path and its file
names.  In non-recursive mode only the first walk item is inspected. -/
def buildLocalFiles (base_path : String) (walk : List (String × List String))
    (recursive : Bool) : List String :=
  (if recursive then walk else walk.take 1).foldl
    (fun s dp =>
      dp.2.foldl
        (fun s f =>
          setAdd s ( remove_prefix (normSlashes dp.1) (base_path ++ "/") ++ "/" ++ f))
        s)
    []

/-- Keys of the remote-files dict. -/
def remoteKeys (rf : List (String × ListingEntry)) : List String :=
  rf.map Prod.fst

/-- Line 164 of sync.py: local paths absent from the remote keys. -/
def localOnly (L : List String) (rf : List (String × ListingEntry)) :
    List String :=
  L.filter fun l => decide (l ∉ remoteKeys rf)

/-- Line 165 of sync.py: remote keys absent from the local paths. -/
def remoteOnly (L : List String) (rf : List (String × ListingEntry)) :
    List String :=
  (remoteKeys rf).filter fun r => decide (r ∉ L)

/-- Line 167 of sync.py: remote entries whose path is in neither exclusive
set. -/
def bothOf (L : List String) (rf : List (String × ListingEntry)) :
    List (String × ListingEntry) :=
  rf.filter fun p => decide (p.1 ∉ remoteOnly L rf ++ localOnly L rf)

/-- `Sync.sync_folder_listing` (sync.py lines 141-170).  `status` and
`listing` are the collaborator's folder-listing response, `walk` the local
directory walk.  On a failing response (status at least 300) the failure is
returned at once with empty result sets. -/
def sync_folder_listing (username : String) (status : Nat)
    (listing : List ListingEntry) (walk : List (String × List String))
    (base_path full_folder_path : String) (recursive : Bool) :
    Nat × List String × List String × List (String × ListingEntry) :=
  if 300 ≤ status then (status, [], [], [])
  else
    (status,
      localOnly (buildLocalFiles (normSlashes base_path) walk recursive)
        (buildRemoteFiles username listing),
      remoteOnly (buildLocalFiles (normSlashes base_path) walk recursive)
        (buildRemoteFiles username listing),
      bothOf (buildLocalFiles (normSlashes base_path) walk recursive)
        (buildRemoteFiles username listing))

/-- Collaborator results consumed by `Sync._sync_make_version_delta`
(sync.py lines 172-179): the rdiff signature status and the
`ws_make_version_delta` HTTP status. -/
structure VersionDeltaEnv where
  sigStatus : Int
  wsStatus : Nat
deriving DecidableEq

/-- `Sync._sync_make_version_delta` (sync.py lines 172-179). -/
def sync_make_version_delta (e : VersionDeltaEnv) : Nat :=
  if e.sigStatus ≠ 0 then 0
  else if e.wsStatus ≠ 200 then 0
  else 1

/-- Collaborator results consumed by `Sync._sync_both_file_upload`
(sync.py lines 181-191): the rdiff delta status and the
`ws_upload_new_file_version` HTTP status. -/
structure UploadEnv where
  deltaStatus : Int
  wsStatus : Nat
deriving DecidableEq

/-- `Sync._sync_both_file_upload` (sync.py lines 181-191). -/
def sync_both_file_upload (e : UploadEnv) : Nat :=
  if e.deltaStatus ≠ 0 then 0
  else if e.wsStatus ≠ 200 then 0
  else 1

/-- Collaborator results consumed by `Sync._sync_both_file_download`
(sync.py lines 193-208): the rdiff signature status, the
`ws_download_new_file_version` HTTP status, and the rdiff patch status. -/
structure DownloadEnv where
  sigStatus : Int
  wsStatus : Nat
  patchStatus : Int
deriving DecidableEq

/-- `Sync._sync_both_file_download` (sync.py lines 193-208).  The result of
`self.rdiff.signature` on line 196 is not inspected by the source, so
`sigStatus` does not influence the result. -/
def sync_both_file_download (e : DownloadEnv) : Nat :=
  if e.wsStatus ≠ 200 then 0
  else if e.patchStatus ≠ 0 then 0
  else 1

/-- One iteration's worth of collaborator answers for a file of the `both`
set inside `sync_folder.sync_both_files` (sync.py lines 276-294):
the owner returned by the first `filer_get_file_lock` call, the owner
returned by the re-read after `filer_set_file_lock`, and the truthiness of
the `sync_both_file` result if it is invoked. -/
structure FileCase where
  path : String
  firstLock : String
  secondLock : String
  syncOk : Bool
deriving DecidableEq

/-- One iteration of the loop in `sync_both_files` (sync.py lines 277-294)
for one file: whether `sync_both_file` is invoked, and whether the file is
appended to the retry queue. -/
def sync_both_files_step (client_id : String) (b : FileCase) : Bool × Bool :=
  if b.firstLock ≠ "" then (false, true)
  else if b.secondLock = client_id then
    if b.syncOk then (true, false) else (true, true)
  else (false, true)

/-- The full pass of `sync_both_files` over the `both` list: the files
appended to the retry queue, in order. -/
def sync_both_files_pass (client_id : String) : List FileCase → List FileCase
  | [] => []
  | b :: rest =>
      if (sync_both_files_step client_id b).2 then
        b :: sync_both_files_pass client_id rest
      else sync_both_files_pass client_id rest

/-- One iteration of the retry loop of `sync_folder` (sync.py lines
298-302): the pass runs over a copy of the current retry queue and appends
its deferrals to the same queue, which is never cleared, so afterwards the
queue holds its previous contents followed by the new deferrals. -/
def retry_round (client_id : String) (rep : List FileCase) : List FileCase :=
  rep ++ sync_both_files_pass client_id rep

lemma chunksOfAux_join (size : Nat) (hs : 0 < size) :
    ∀ fuel l, l.length ≤ fuel → (chunksOfAux size fuel l).join = l := by
  intro fuel
  induction fuel with
  | zero =>
      intro l hl
      have hl0 : l = [] := List.eq_nil_of_length_eq_zero (Nat.le_zero.mp hl)
      subst hl0
      simp [chunksOfAux]
  | succ n ih =>
      intro l hl
      cases l with
      | nil => simp [chunksOfAux]
      | cons a l2 =>
          have hdrop : ((a :: l2).drop size).length ≤ n := by
            simp only [List.length_drop]
            simp only [List.length_cons] at hl ⊢
            omega
          simp only [chunksOfAux, List.join_cons, ih _ hdrop]
          exact List.take_append_drop size (a :: l2)

lemma chunksOf_join (size : Nat) (hs : 0 < size) (l : List Nat) :
    (chunksOf size l).join = l := by
  unfold chunksOf
  rw [if_neg (Nat.pos_iff_ne_zero.mp hs)]
  exact chunksOfAux_join size hs l.length l le_rfl

lemma chunksOfAux_mem_ne_nil (size : Nat) (hs : 0 < size) :
    ∀ fuel l c, c ∈ chunksOfAux size fuel l → c ≠ [] := by
  intro fuel
  induction fuel with
  | zero => intro l c hc; simp [chunksOfAux] at hc
  | succ n ih =>
      intro l c hc
      cases l with
      | nil => simp [chunksOfAux] at hc
      | cons a l2 =>
          simp only [chunksOfAux, List.mem_cons] at hc
          rcases hc with hc | hc
          · subst hc
            simp only [ne_eq, List.take_eq_nil_iff]
            intro h
            rcases h with h | h
            · omega
            · exact List.cons_ne_nil a l2 h
          · exact ih _ _ hc

lemma chunksOf_mem_ne_nil (size : Nat) (hs : 0 < size) (l : List Nat) :
    ∀ c ∈ chunksOf size l, c ≠ [] := by
  intro c hc
  unfold chunksOf at hc
  rw [if_neg (Nat.pos_iff_ne_zero.mp hs)] at hc
  exact chunksOfAux_mem_ne_nil size hs l.length l c hc

lemma md5_update_all_eq : ∀ (cs : List (List Nat)) (acc : List Nat),
    md5_update_all acc cs = acc ++ cs.join := by
  intro cs
  induction cs with
  | nil => intro acc; simp [md5_update_all]
  | cons c cs ih =>
      intro acc
      simp [md5_update_all, ih (acc ++ c), List.append_assoc]

lemma md5_whole_file_eq (H : List Nat → List Nat) (file : List Nat) :
    md5_whole_file H file = H file := by
  unfold md5_whole_file
  rw [md5_update_all_eq, List.nil_append, chunksOf_join 16384 (by decide) file]

lemma md5_gen_aux_eq (H : List Nat → List Nat) :
    ∀ (cs : List (List Nat)) (acc : List Nat),
      md5_gen_aux H acc cs = cs.map H ++ [H (acc ++ cs.join)] := by
  intro cs
  induction cs with
  | nil => intro acc; simp [md5_gen_aux]
  | cons c cs ih =>
      intro acc
      simp [md5_gen_aux, ih (acc ++ c), List.append_assoc]

lemma md5_file_generator_eq (H : List Nat → List Nat) (size : Nat)
    (file : List Nat) :
    md5_file_generator H size file =
      (chunksOf size file).map H ++ [H (chunksOf size file).join] := by
  unfold md5_file_generator
  rw [md5_gen_aux_eq, List.nil_append]

lemma md5_gen_aux_ne_nil (H : List Nat → List Nat) (acc : List Nat)
    (cs : List (List Nat)) : md5_gen_aux H acc cs ≠ [] := by
  cases cs <;> simp [md5_gen_aux]

/-- C5 amended: for every file and every positive chunk size, the chunked
digest generator yields exactly one per-chunk digest for each chunk read,
all chunks read are non-empty, and its final element is the whole-file
digest as computed by md5_whole_file. -/
theorem c5_generator_final_is_whole (H : List Nat → List Nat) (size : Nat)
    (file : List Nat) (h : 0 < size) :
    md5_file_generator H size file =
        ((chunksOf size file).map H) ++ [md5_whole_file H file] ∧
      ((chunksOf size file).all fun c => !c.isEmpty) = true := by
  constructor
  · rw [md5_file_generator_eq, md5_whole_file_eq, chunksOf_join size h file]
  · rw [List.all_eq_true]
    intro c hc
    have := chunksOf_mem_ne_nil size h file c hc
    simpa [List.isEmpty_iff] using this

/-- C5 counterexample: at chunk size 0 the generator reads nothing
(Python read(0) returns the empty byte string, ending the read loop), so
its final element is the digest of the empty byte sequence, which differs
from the whole-file digest of the non-empty file [1]. -/
theorem c5_zero_chunk_size_cex :
    (md5_file_generator (fun l => l) 0 [1]).getLast? = some [] ∧
      md5_whole_file (fun l => l) [1] = [1] ∧
      some ([] : List Nat) ≠ some (md5_whole_file (fun l => l) [1]) := by
  decide

/-- C5 witness: the amended statement evaluated at chunk size 1 on the
two-byte file [7, 8]. -/
theorem c5_generator_final_is_whole_witness :
    0 < 1 ∧
      (md5_file_generator (fun l => l) 1 [7, 8] =
          ((chunksOf 1 [7, 8]).map fun l => l) ++ [md5_whole_file (fun l => l) [7, 8]] ∧
        ((chunksOf 1 [7, 8]).all fun c => !c.isEmpty) = true) :=
  ⟨by decide, c5_generator_final_is_whole (fun l => l) 1 [7, 8] (by decide)⟩

/-- C3: the direction decision returns upload if and only if the local
mtime exceeds the remote reference time by strictly more than 50 seconds
and download otherwise, including at the exact boundary; the remote
reference time is the number formed by the first 10 decimal digits of the
first chunk's recorded mtime. -/
theorem c3_choose_direction (t_local m : Nat) :
    (syncDirection t_local m = .upload ↔ firstTenDigits m + 50 < t_local) ∧
      (syncDirection t_local m = .download ↔ ¬ firstTenDigits m + 50 < t_local) ∧
      (t_local = firstTenDigits m + 50 → syncDirection t_local m = .download) := by
  unfold syncDirection chooseDirection
  by_cases h : firstTenDigits m + 50 < t_local
  · refine ⟨by simp [h], by simp [h], ?_⟩
    intro he
    omega
  · exact ⟨by simp [h], by simp [h], fun _ => by simp [h]⟩

/-- C3 witness: the boundary case, where the local mtime exceeds the
remote reference time (first ten digits of an 11-digit recorded mtime) by
exactly 50 seconds, gives download. -/
theorem c3_choose_direction_witness :
    1234567940 = firstTenDigits 12345678901 + 50 ∧
      syncDirection 1234567940 12345678901 = .download :=
  ⟨by decide, (c3_choose_direction 1234567940 12345678901).2.2 (by decide)⟩

/-- C9: the receiver loop writes exactly the buffers received strictly
before the first read returning zero bytes or the literal sentinel bytes
of 'stop', and never writes the sentinel or any later buffer. -/
theorem c9_receive_stops_at_sentinel (reads : List (List Nat)) :
    receive_file reads =
        reads.takeWhile (fun b => !(b.isEmpty || b == stopBytes)) ∧
      ((receive_file reads).all fun b => !(b == stopBytes)) = true := by
  induction reads with
  | nil => exact ⟨rfl, rfl⟩
  | cons b rest ih =>
      by_cases hb : b = [] ∨ b = stopBytes
      · constructor
        · rw [List.takeWhile_cons]
          have hpb : (!(b.isEmpty || b == stopBytes)) = false := by
            rcases hb with hb | hb <;> subst hb <;> simp
          simp [receive_file, hb, hpb]
        · simp [receive_file, hb]
      · push_neg at hb
        have hnb : ¬ (b = [] ∨ b = stopBytes) := by tauto
        have hpb : (!(b.isEmpty || b == stopBytes)) = true := by
          simp [List.isEmpty_iff, hb.1, hb.2]
        have hstep : receive_file (b :: rest) = b :: receive_file rest := by
          simp [receive_file, hnb]
        constructor
        · rw [List.takeWhile_cons, if_pos hpb, hstep, ih.1]
        · rw [hstep, List.all_cons, ih.2, Bool.and_true]
          simp [hb.2]

lemma cme_nil (gen : List Digest) :
    chunks_md5s_equals gen [] = some (true, gen) := by
  cases gen <;> rfl

lemma cme_spec (H : List Nat → List Nat) (rs : List ChunkInfo) :
    ∀ (lcs : List (List Nat)) (w : Digest),
      (∃ gs, chunks_md5s_equals (lcs.map H ++ [w]) rs = some (true, gs) ∧ gs ≠ []) ↔
        specChunkwiseMatch H rs lcs = true := by
  induction rs with
  | nil =>
      intro lcs w
      constructor
      · intro _
        simp [specChunkwiseMatch]
      · intro _
        exact ⟨lcs.map H ++ [w], cme_nil _, by simp⟩
  | cons c cs ih =>
      intro lcs w
      cases lcs with
      | nil =>
          simp only [List.map_nil, List.nil_append, specChunkwiseMatch]
          by_cases hc : c.e_tag = w
          · cases cs with
            | nil => simp [chunks_md5s_equals, hc]
            | cons c2 cs2 => simp [chunks_md5s_equals, hc]
          · simp [chunks_md5s_equals, hc]
      | cons lc lcs2 =>
          simp only [List.map_cons, List.cons_append, specChunkwiseMatch]
          by_cases hc : c.e_tag = H lc
          · have hstep :
                chunks_md5s_equals (H lc :: (lcs2.map H ++ [w])) (c :: cs) =
                  chunks_md5s_equals (lcs2.map H ++ [w]) cs := by
              simp [chunks_md5s_equals, hc]
            rw [hstep]
            simpa [hc] using ih lcs2 w
          · simp [chunks_md5s_equals, hc]

/-- C1: the comparison phase of sync_both_file reports the file as already
synced exactly when the local size equals the remote FileSize and, with a
whole-file digest known from the Md5 field or the store-held tag, the local
whole-file digest equals it, or, with no whole-file digest known, every
remote chunk digest equals the digest of the corresponding local chunk
read in chunk order. -/
lemma md5_file_generator_ne_nil (H : List Nat → List Nat) (size : Nat)
    (file : List Nat) : md5_file_generator H size file ≠ [] :=
  md5_gen_aux_ne_nil H [] _

/-- C1: the comparison phase of sync_both_file reports the file as already
synced exactly when the local size equals the remote FileSize and, with a
whole-file digest known from the Md5 field or the store-held tag, the local
whole-file digest equals it, or, with no whole-file digest known, every
remote chunk digest equals the digest of the corresponding local chunk
read in chunk order. -/
theorem c1_is_already_synced_iff (H : List Nat → List Nat) (size : Nat)
    (file : List Nat) (meta : RemoteMeta) (tag : Option Digest) :
    (∃ o, sync_both_file_compare H size file meta tag = some o ∧ o.synced = true) ↔
      spec_isAlreadySynced H size file meta tag = true := by
  unfold sync_both_file_compare spec_isAlreadySynced
  cases hres : resolvedMd5 meta tag with
  | some d =>
      dsimp only
      by_cases hcond : file.length = meta.FileSize ∧ md5_whole_file H file = d
      · rw [if_pos hcond]
        constructor
        · intro _
          rw [Bool.and_eq_true]
          exact ⟨decide_eq_true hcond.1, decide_eq_true hcond.2⟩
        · intro _
          exact ⟨_, rfl, rfl⟩
      · rw [if_neg hcond]
        constructor
        · rintro ⟨o, ho, hsy⟩
          injection ho with ho
          rw [← ho] at hsy
          simp at hsy
        · intro hrhs
          rw [Bool.and_eq_true, decide_eq_true_eq, decide_eq_true_eq] at hrhs
          exact absurd hrhs hcond
  | none =>
      dsimp only
      by_cases hs : file.length = meta.FileSize
      · rw [if_pos hs]
        rw [decide_eq_true hs, Bool.true_and]
        generalize hc :
          chunks_md5s_equals (md5_file_generator H size file) meta.chunks = res
        rw [md5_file_generator_eq H size file] at hc
        rcases res with _ | ⟨b, rest⟩
        · dsimp only
          constructor
          · rintro ⟨o, ho, _⟩
            cases ho
          · intro hspec
            obtain ⟨gs, hgs, _⟩ :=
              (cme_spec H meta.chunks (chunksOf size file)
                (H (chunksOf size file).join)).mpr hspec
            rw [hc] at hgs
            cases hgs
        · rcases rest with _ | ⟨g, rest2⟩
          · dsimp only
            constructor
            · rintro ⟨o, ho, _⟩
              cases ho
            · intro hspec
              obtain ⟨gs, hgs, hne⟩ :=
                (cme_spec H meta.chunks (chunksOf size file)
                  (H (chunksOf size file).join)).mpr hspec
              rw [hc] at hgs
              simp only [Option.some.injEq, Prod.mk.injEq] at hgs
              exact absurd hgs.2.symm hne
          · dsimp only
            constructor
            · rintro ⟨o, ho, hsy⟩
              injection ho with ho
              rw [← ho] at hsy
              dsimp only at hsy
              subst hsy
              exact (cme_spec H meta.chunks (chunksOf size file)
                (H (chunksOf size file).join)).mp ⟨g :: rest2, hc, by simp⟩
            · intro hspec
              obtain ⟨gs, hgs, _⟩ :=
                (cme_spec H meta.chunks (chunksOf size file)
                  (H (chunksOf size file).join)).mpr hspec
              rw [hc] at hgs
              simp only [Option.some.injEq, Prod.mk.injEq] at hgs
              rw [hgs.1]
              exact ⟨_, rfl, rfl⟩
      · rw [if_neg hs]
        rw [decide_eq_false hs, Bool.false_and]
        generalize hgen : md5_file_generator H size file = gen0
        rcases gen0 with _ | ⟨g, gs⟩
        · exact absurd hgen (md5_file_generator_ne_nil H size file)
        · dsimp only
          constructor
          · rintro ⟨o, ho, hsy⟩
            injection ho with ho
            rw [← ho] at hsy
            simp at hsy
          · intro h
            cases h

/-- C2 evaluation at the failing input: with the remote whole-file digest
unknown, sizes equal and the first remote chunk digest mismatching, the
comparison exits early and the digest persisted as the content-hash tag is
the digest of the second local chunk, while the whole-file digest of the
same file is the digest of all four bytes. -/
theorem c2_persists_chunk_digest_after_early_exit :
    sync_both_file_compare (fun l => l) 2 [1, 2, 3, 4]
        { Md5 := none, FileSize := 4, chunks := [{ e_tag := [9, 9], mtime := 0 }] }
        none =
      some { synced := false, persistedMd5 := some [3, 4], removedTags := false } ∧
      md5_whole_file (fun l => l) [1, 2, 3, 4] = [1, 2, 3, 4] := by
  decide

/-- C10: for a remote entry whose Md5 is the unset marker, whose
content-hash tag resolves to the empty string and whose chunk list is
empty, the comparison phase reports the file as already synced whenever
the sizes agree, for every file content. -/
theorem c10_empty_chunklist_vacuous (H : List Nat → List Nat) (size : Nat)
    (file : List Nat) (meta : RemoteMeta) (h1 : meta.Md5 = none)
    (h2 : meta.chunks = []) (h3 : meta.FileSize = file.length) :
    ∃ o, sync_both_file_compare H size file meta none = some o ∧
      o.synced = true := by
  rcases hg : md5_file_generator H size file with _ | ⟨g, gs⟩
  · exact absurd hg (md5_file_generator_ne_nil H size file)
  · refine ⟨{ synced := true, persistedMd5 := some g, removedTags := true }, ?_, rfl⟩
    have hr : resolvedMd5 meta none = none := by simp [resolvedMd5, h1]
    unfold sync_both_file_compare
    rw [hr, h2]
    dsimp only
    rw [if_pos h3.symm, cme_nil, hg]

/-- C10 witness: a one-byte local file against a remote entry with unset
digest, empty chunk list and matching size is reported already synced. -/
theorem c10_empty_chunklist_vacuous_witness :
    ∃ o, sync_both_file_compare (fun l => l) 3 [5]
        { Md5 := none, FileSize := 1, chunks := [] } none = some o ∧
      o.synced = true :=
  c10_empty_chunklist_vacuous (fun l => l) 3 [5]
    { Md5 := none, FileSize := 1, chunks := [] } rfl rfl rfl

lemma mem_localOnly (L : List String) (rf : List (String × ListingEntry))
    (x : String) : x ∈ localOnly L rf ↔ x ∈ L ∧ x ∉ remoteKeys rf := by
  simp [localOnly, List.mem_filter]

lemma mem_remoteOnly (L : List String) (rf : List (String × ListingEntry))
    (x : String) : x ∈ remoteOnly L rf ↔ x ∈ remoteKeys rf ∧ x ∉ L := by
  simp [remoteOnly, List.mem_filter]

lemma mem_bothKeys (L : List String) (rf : List (String × ListingEntry))
    (x : String) :
    x ∈ (bothOf L rf).map Prod.fst ↔ x ∈ remoteKeys rf ∧ x ∈ L := by
  constructor
  · intro hx
    rw [List.mem_map] at hx
    obtain ⟨p, hp, hpx⟩ := hx
    rw [bothOf, List.mem_filter, decide_eq_true_eq] at hp
    obtain ⟨hprf, hpred⟩ := hp
    subst hpx
    have hxr : p.1 ∈ remoteKeys rf := List.mem_map_of_mem Prod.fst hprf
    refine ⟨hxr, ?_⟩
    by_contra hxL
    exact hpred (List.mem_append.mpr
      (Or.inl ((mem_remoteOnly L rf p.1).mpr ⟨hxr, hxL⟩)))
  · rintro ⟨hxr, hxL⟩
    have hxr2 := hxr
    rw [remoteKeys, List.mem_map] at hxr2
    obtain ⟨p, hp, hpx⟩ := hxr2
    rw [List.mem_map]
    refine ⟨p, ?_, hpx⟩
    rw [bothOf, List.mem_filter, decide_eq_true_eq]
    refine ⟨hp, ?_⟩
    rw [List.mem_append]
    rintro (h | h)
    · exact ((mem_remoteOnly L rf p.1).mp h).2 (hpx ▸ hxL)
    · exact ((mem_localOnly L rf p.1).mp h).2 (hpx ▸ hxr)

/-- C4: the three result sets of the difference detector are pairwise
disjoint and together cover exactly the union of the local relative paths
and the remote relative paths (both computed by stripping their base
prefixes); a failing listing response (status at least 300) is returned
immediately with empty result sets. -/
theorem c4_listing_partition (username : String) (status : Nat)
    (listing : List ListingEntry) (walk : List (String × List String))
    (base_path full_folder_path : String) (recursive : Bool) :
    (300 ≤ status →
      sync_folder_listing username status listing walk base_path
          full_folder_path recursive = (status, [], [], [])) ∧
      ∀ st lo ro bo,
        sync_folder_listing username status listing walk base_path
            full_folder_path recursive = (st, lo, ro, bo) →
          lo ∩ ro = [] ∧ lo ∩ bo.map Prod.fst = [] ∧
            ro ∩ bo.map Prod.fst = [] ∧
            (status < 300 →
              (lo ++ ro ++ bo.map Prod.fst).toFinset =
                (buildLocalFiles (normSlashes base_path) walk recursive ++
                  remoteKeys (buildRemoteFiles username listing)).toFinset) := by
  constructor
  · intro h300
    unfold sync_folder_listing
    rw [if_pos h300]
  · intro st lo ro bo heq
    unfold sync_folder_listing at heq
    by_cases h300 : 300 ≤ status
    · rw [if_pos h300] at heq
      simp only [Prod.mk.injEq] at heq
      obtain ⟨h1, h2, h3, h4⟩ := heq
      subst h2; subst h3; subst h4
      refine ⟨by simp, by simp, by simp, ?_⟩
      intro hlt
      omega
    · rw [if_neg h300] at heq
      simp only [Prod.mk.injEq] at heq
      obtain ⟨h1, h2, h3, h4⟩ := heq
      subst h2; subst h3; subst h4
      refine ⟨?_, ?_, ?_, ?_⟩
      · rw [List.eq_nil_iff_forall_not_mem]
        intro x hx
        rw [List.mem_inter_iff, mem_localOnly, mem_remoteOnly] at hx
        tauto
      · rw [List.eq_nil_iff_forall_not_mem]
        intro x hx
        rw [List.mem_inter_iff, mem_localOnly, mem_bothKeys] at hx
        tauto
      · rw [List.eq_nil_iff_forall_not_mem]
        intro x hx
        rw [List.mem_inter_iff, mem_remoteOnly, mem_bothKeys] at hx
        tauto
      · intro _
        apply Finset.ext
        intro x
        simp only [List.mem_toFinset, List.mem_append, mem_localOnly,
          mem_remoteOnly, mem_bothKeys]
        by_cases hL : x ∈ buildLocalFiles (normSlashes base_path) walk recursive <;>
          by_cases hR : x ∈ remoteKeys (buildRemoteFiles username listing) <;>
          tauto

/-- C4 witness: a failing listing returns the failure with empty sets, and
on a successful listing with one remote file and one different local file
the computed local-only and remote-only sets are disjoint. -/
theorem c4_listing_partition_witness :
    sync_folder_listing "u" 400 [] [] "b" "b" true = (400, [], [], []) ∧
      (["dir/b.txt"] : List String) ∩ ["a.txt"] = [] := by
  constructor
  · exact (c4_listing_partition "u" 400 [] [] "b" "b" true).1 (by decide)
  · exact ((c4_listing_partition "u" 200 [⟨420, "/u/a.txt"⟩]
      [("base/dir", ["b.txt"])] "base" "base/dir" true).2
      200 ["dir/b.txt"] ["a.txt"] [] (by decide)).1

/-- C6: in the conflict-resolution pass, the per-file mutation step is
invoked exactly when the first lock query returned an empty owner and the
lock read back after acquisition equals this client's identity; otherwise
the file is appended to the retry queue and not mutated. -/
theorem c6_lock_confirmed_gate (client_id : String) (b : FileCase) :
    ((sync_both_files_step client_id b).1 = true ↔
        (b.firstLock = "" ∧ b.secondLock = client_id)) ∧
      (¬ (b.firstLock = "" ∧ b.secondLock = client_id) →
        (sync_both_files_step client_id b).1 = false ∧
          (sync_both_files_step client_id b).2 = true) ∧
      ∀ bs : List FileCase, b ∈ bs →
        (sync_both_files_step client_id b).2 = true →
        b ∈ sync_both_files_pass client_id bs := by
  refine ⟨?_, ?_, ?_⟩
  · unfold sync_both_files_step
    split_ifs with h1 h2 h3 <;> simp_all
  · unfold sync_both_files_step
    split_ifs with h1 h2 h3 <;> simp_all
  · intro bs hmem hdef
    induction bs with
    | nil => cases hmem
    | cons a rest ih =>
        rcases List.mem_cons.mp hmem with h | h
        · subst h
          unfold sync_both_files_pass
          rw [if_pos hdef]
          exact List.mem_cons_self _ _
        · unfold sync_both_files_pass
          by_cases hd : (sync_both_files_step client_id a).2 = true
          · rw [if_pos hd]
            exact List.mem_cons_of_mem _ (ih h)
          · rw [if_neg hd]
            exact ih h

/-- C6 witness: with the first lock query showing a non-empty owner, the
mutation step is not invoked, the file is deferred, and it appears in the
retry queue of a pass over the singleton list. -/
theorem c6_lock_confirmed_gate_witness :
    (sync_both_files_step "me" ⟨"p", "x", "", false⟩).1 = false ∧
      (sync_both_files_step "me" ⟨"p", "x", "", false⟩).2 = true ∧
      (⟨"p", "x", "", false⟩ : FileCase) ∈
        sync_both_files_pass "me" [⟨"p", "x", "", false⟩] := by
  have h := c6_lock_confirmed_gate "me" ⟨"p", "x", "", false⟩
  have hd := h.2.1 (by decide)
  exact ⟨hd.1, hd.2, h.2.2 [⟨"p", "x", "", false⟩] (by decide) hd.2⟩

/-- C7 amended: a non-zero delta status, a non-zero patch status, and a
non-zero signature status on the upload path each abort the attempt with a
failure result, and an invoked attempt whose sync result is a failure is
appended to the retry queue; the download-path signature status is not
inspected by the source. -/
theorem c7_failures_abort :
    (∀ e : VersionDeltaEnv, e.sigStatus ≠ 0 → sync_make_version_delta e = 0) ∧
      (∀ e : UploadEnv, e.deltaStatus ≠ 0 → sync_both_file_upload e = 0) ∧
      (∀ e : DownloadEnv, e.patchStatus ≠ 0 → sync_both_file_download e = 0) ∧
      ∀ (client_id : String) (b : FileCase), b.syncOk = false →
        (sync_both_files_step client_id b).1 = true →
        (sync_both_files_step client_id b).2 = true := by
  refine ⟨?_, ?_, ?_, ?_⟩
  · intro e he
    unfold sync_make_version_delta
    rw [if_pos he]
  · intro e he
    unfold sync_both_file_upload
    rw [if_pos he]
  · intro e he
    unfold sync_both_file_download
    by_cases hw : e.wsStatus ≠ 200
    · rw [if_pos hw]
    · rw [if_neg hw, if_pos he]
  · intro client_id b hok hinv
    unfold sync_both_files_step at hinv ⊢
    split_ifs at hinv ⊢ with h1 h2 h3 <;> simp_all

/-- C7 witness: each aborting condition evaluated at a concrete failing
status, and a deferred failed attempt. -/
theorem c7_failures_abort_witness :
    sync_make_version_delta ⟨1, 200⟩ = 0 ∧ sync_both_file_upload ⟨1, 200⟩ = 0 ∧
      sync_both_file_download ⟨0, 200, 1⟩ = 0 ∧
      (sync_both_files_step "me" ⟨"p", "", "me", false⟩).2 = true :=
  ⟨c7_failures_abort.1 ⟨1, 200⟩ (by decide),
    c7_failures_abort.2.1 ⟨1, 200⟩ (by decide),
    c7_failures_abort.2.2.1 ⟨0, 200, 1⟩ (by decide),
    c7_failures_abort.2.2.2 "me" ⟨"p", "", "me", false⟩ rfl (by decide)⟩

/-- C7 counterexample to the claim as stated: on the download path a
failed signature (status 1) does not abort the attempt; with the delta
exchange and the patch succeeding the attempt reports success. -/
theorem c7_download_signature_ignored_cex :
    sync_both_file_download { sigStatus := 1, wsStatus := 200, patchStatus := 0 } = 1 := by
  decide

/-- C8 evaluation at the failing input: a retry queue holding one file
whose re-attempt is invoked and succeeds (empty first lock, confirmed
second lock, successful sync) is unchanged after the retry round — the
queue is never cleared, so the retry loop cannot end. -/
theorem c8_retry_queue_never_drains :
    (sync_both_files_step "me" ⟨"p", "", "me", true⟩).1 = true ∧
      (sync_both_files_step "me" ⟨"p", "", "me", true⟩).2 = false ∧
      retry_round "me" [⟨"p", "", "me", true⟩] = [⟨"p", "", "me", true⟩] := by
  decide

end Sync
